import Mathlib

/-!
Verification of the batch CV-to-job matching pipeline
(`api/process_cvs.py`, `backend/llm_factory.py`).

The Python orchestrator is embedded shallowly: each record type mirrors the
rows / JSON objects the script manipulates, and each step of the per-candidate
loop becomes a pure Lean function.  Python strings are Lean `String`s; where a
proof needs structural induction over string contents we work with the
underlying `List Char`.  JSON `null` / missing keys are `Option.none`.
-/

namespace CVMatch

/-- A row of `job_postings`; only rows with `status = "open"` are fetched
(`process_cvs.py` line 61), so the status field is left implicit. -/
structure Job where
  id : String
  title : String
  description : String
  requirements : String
  required_skills : List String
deriving DecidableEq

/-- A row of `candidates` as read by the orchestrator.  Optional fields model
JSON null / missing keys (Python `candidate.get(...)`). -/
structure Candidate where
  id : String
  full_name : String
  email : Option String
  phone : Option String
  years_of_experience : Option Int
  education_level : Option String
  cv_file_url : Option String
deriving DecidableEq

/-- The placeholder literal compared against on line 112 of `process_cvs.py`. -/
def placeholderName : String := "CV con foto"

/-- Python `str.lower()`: lowercase every character. -/
def pyLower (s : String) : String := ⟨s.data.map Char.toLower⟩

/-- Python `s.startswith(pre)`. -/
def pyStartsWith (s pre : String) : Bool := pre.data.isPrefixOf s.data

/-- Python `s.endswith(suf)`. -/
def pyEndsWith (s suf : String) : Bool := suf.data.isSuffixOf s.data

/-- Python `str.strip()` over the character list: drop whitespace from both
ends. -/
def trimChars (cs : List Char) : List Char :=
  ((cs.dropWhile Char.isWhitespace).reverse.dropWhile Char.isWhitespace).reverse

/-- Python `s.strip()` at the `String` level. -/
def pyStrip (s : String) : String := ⟨trimChars s.data⟩

/-- Line 112: `candidate['full_name'].lower().startswith('cv ') or
candidate['full_name'].lower().endswith('.pdf') or
candidate['full_name'] == "CV con foto"`. -/
def nameNeedsUpdate (full_name : String) : Bool :=
  pyStartsWith (pyLower full_name) "cv " || pyEndsWith (pyLower full_name) ".pdf"
    || full_name == placeholderName

/-- Line 113: `not candidate.get('phone')` — true when the field is missing,
null, or the empty string. -/
def phoneNeedsUpdate (phone : Option String) : Bool :=
  match phone with
  | none => true
  | some s => s.isEmpty

/-- Line 116: `name_needs_update or phone_needs_update`. -/
def needsUpdate (c : Candidate) : Bool :=
  nameNeedsUpdate c.full_name || phoneNeedsUpdate c.phone

/-- Lines 115-121: the work selector.  When info is missing re-evaluate against
all open jobs, otherwise only against jobs whose id carries no existing score
(`[j for j in jobs if j['id'] not in existing_job_ids]`). -/
def jobsToEvaluate (c : Candidate) (jobs : List Job) (existingJobIds : List String) :
    List Job :=
  if needsUpdate c then jobs
  else jobs.filter (fun j => !(existingJobIds.contains j.id))

/-- A scalar JSON value as Python sees it for `years_of_experience`: a number
(JSON numbers are finite decimals, modelled as rationals), a string, or some
other shape on which `float(...)` raises `TypeError`. -/
inductive PyVal where
  | pyNum (q : Rat)
  | pyStr (s : String)
  | pyOther
deriving DecidableEq

/-- Digit string to natural number, most significant digit first. -/
def digitsVal (cs : List Char) : Nat :=
  cs.foldl (fun a c => 10 * a + (c.toNat - '0'.toNat)) 0

/-- Modelled from the spec: the Python builtin `float(str)` (an external
library function, not repository code) restricted to finite decimal literals
`digits [. digits]` — exactly the shapes the spec's coercion examples use.
Returns `none` where `float` raises `ValueError` (e.g. `"n/a"`). -/
def parseUnsignedDecimal (cs : List Char) : Option Rat :=
  let intPart := cs.takeWhile Char.isDigit
  let rest := cs.dropWhile Char.isDigit
  match rest with
  | [] => if intPart.isEmpty then none else some (digitsVal intPart : Nat)
  | '.' :: afterDot =>
    let fracPart := afterDot.takeWhile Char.isDigit
    let rest2 := afterDot.dropWhile Char.isDigit
    if rest2.isEmpty && !(intPart.isEmpty && fracPart.isEmpty) then
      some ((digitsVal intPart : Rat) + (digitsVal fracPart : Rat) / ((10 : Rat) ^ fracPart.length))
    else none
  | _ => none

/-- Modelled from the spec: `float(s)` strips surrounding whitespace and
accepts an optional sign before the decimal body. -/
def pyFloatOfString (s : String) : Option Rat :=
  match trimChars s.data with
  | '+' :: rest => parseUnsignedDecimal rest
  | '-' :: rest => (parseUnsignedDecimal rest).map (fun q => -q)
  | cs => parseUnsignedDecimal cs

/-- `float(v)` on a JSON scalar: numbers pass through, strings are parsed,
anything else raises `TypeError` (modelled as `none`). -/
def pyFloat : PyVal → Option Rat
  | .pyNum q => some q
  | .pyStr s => pyFloatOfString s
  | .pyOther => none

/-- Python `int(float)` truncates toward zero. -/
def truncToInt (q : Rat) : Int :=
  if 0 ≤ q then q.floor else q.ceil

/-- Line 206: `int(float(extracted["years_of_experience"]))`, with the
`except (ValueError, TypeError): pass` of lines 207-208 modelled as `none`. -/
def coerceYears (v : PyVal) : Option Int :=
  (pyFloat v).map truncToInt

/-- The `extracted_info` object of the model's JSON reply (each field
nullable per the prompt's schema). -/
structure ExtractedInfo where
  full_name : Option String := none
  email : Option String := none
  phone : Option String := none
  years_of_experience : Option PyVal := none
  education_level : Option String := none
deriving DecidableEq

/-- The partial-update record sent to `supabase...update(update_data)`;
a `none` field models a key absent from the Python dict. -/
structure UpdateData where
  full_name : Option String := none
  email : Option String := none
  phone : Option String := none
  years_of_experience : Option Int := none
  education_level : Option String := none
deriving DecidableEq

/-- Python truthiness gate for the string fields (lines 201-203, 209):
`if extracted.get(k): update_data[k] = extracted[k]` keeps a string only when
it is present, non-null and non-empty. -/
def truthyStr : Option String → Option String
  | none => none
  | some s => if s.isEmpty then none else some s

/-- Lines 200-209: assembling `update_data` from `extracted_info`.  The
years field is gated by `is not None` (line 204) and then coerced, the four
string fields by truthiness. -/
def buildUpdateData (e : ExtractedInfo) : UpdateData where
  full_name := truthyStr e.full_name
  email := truthyStr e.email
  phone := truthyStr e.phone
  years_of_experience := e.years_of_experience.bind coerceYears
  education_level := truthyStr e.education_level

/-- Line 211: `if update_data:` — the dict is falsy exactly when no key was
ever added. -/
def UpdateData.isEmpty (u : UpdateData) : Bool :=
  u.full_name.isNone && u.email.isNone && u.phone.isNone
    && u.years_of_experience.isNone && u.education_level.isNone

/-- The opaque `analysis` blob: a JSON object carried through unchanged.
Modelled as an association list of rendered sub-fields. -/
abbrev ScoreDetails := List (String × String)

/-- One value of the model's `evaluations` mapping; every field may be
missing (`eval_data.get(..., default)` supplies the defaults). -/
structure EvalData where
  overall_score : Option Int := none
  experience_score : Option Int := none
  skills_score : Option Int := none
  education_score : Option Int := none
  location_score : Option Int := none
  analysis : Option ScoreDetails := none
deriving DecidableEq

/-- A `candidate_scores` row as built on lines 223-232. -/
structure ScoreData where
  candidate_id : String
  job_posting_id : String
  overall_score : Int
  experience_score : Int
  skills_score : Int
  education_score : Int
  location_score : Int
  score_details : ScoreDetails
deriving DecidableEq

/-- Lines 223-232: `score_data` for one evaluation entry; missing numeric
fields default to 0, missing `analysis` to the empty object. -/
def mkScoreData (candidateId jobId : String) (e : EvalData) : ScoreData where
  candidate_id := candidateId
  job_posting_id := jobId
  overall_score := e.overall_score.getD 0
  experience_score := e.experience_score.getD 0
  skills_score := e.skills_score.getD 0
  education_score := e.education_score.getD 0
  location_score := e.location_score.getD 0
  score_details := e.analysis.getD []

/-- Lines 216-234: the reconciliation loop over `result["evaluations"]`
(a dict in insertion order, modelled as a key/value list).  An entry is
upserted only when `any(j['id'] == job_id for j in jobs_to_evaluate)`;
otherwise it is dropped with a warning and the loop continues. -/
def scoreUpserts (candidateId : String) (jobsToEval : List Job)
    (evaluations : List (String × EvalData)) : List ScoreData :=
  (evaluations.filter (fun p => jobsToEval.any (fun j => j.id == p.1))).map
    (fun p => mkScoreData candidateId p.1 p.2)

/-- The model's parsed JSON reply.  `result.get("extracted_info", {})` and
`result.get("evaluations", {})` make both keys optional with empty-object
defaults, so an absent key is the all-`none` record / the empty list. -/
structure StructuredResult where
  extracted_info : ExtractedInfo := {}
  evaluations : List (String × EvalData) := []
deriving DecidableEq

/-- Observable effects of processing one candidate: how many model calls were
made, which candidate-update writes and which score upserts were issued. -/
structure CandidateEffects where
  modelCalls : Nat
  candidateUpdates : List UpdateData
  scoreUpserts : List ScoreData
deriving DecidableEq

/-- No calls and no writes. -/
def noEffects : CandidateEffects := ⟨0, [], []⟩

/-- Lines 106-235, from work selection onward: skip the candidate when the
selection is empty (lines 123-125); otherwise call the provider once
(line 190; an empty dict, modelled `none`, aborts with no writes, lines
192-194), then build the update record (written only if non-empty, lines
211-212) and the validated score upserts.  The provider is abstracted as a
function of the selected jobs, since the prompt is built from exactly those
jobs plus the fixed CV text. -/
def evaluateCandidate (c : Candidate) (jobs : List Job) (existingJobIds : List String)
    (llm : List Job → Option StructuredResult) : CandidateEffects :=
  let jte := jobsToEvaluate c jobs existingJobIds
  if jte.isEmpty then noEffects
  else
    match llm jte with
    | none => ⟨1, [], []⟩
    | some result =>
      let u := buildUpdateData result.extracted_info
      ⟨1, if u.isEmpty then [] else [u], scoreUpserts c.id jte result.evaluations⟩

/-- One iteration of the candidate loop (lines 81-238): a missing/empty
`cv_file_url` (line 85), a failed download / PDF read (`cvTextOf _ = none`,
lines 95-104), or empty extracted text (lines 98-100) each skip the candidate
with no writes; otherwise the evaluation pipeline runs. -/
def candidateRun (jobs : List Job) (existingOf : String → List String)
    (cvTextOf : Candidate → Option String)
    (llm : Candidate → List Job → Option StructuredResult) (c : Candidate) :
    CandidateEffects :=
  if (c.cv_file_url.getD "").isEmpty then noEffects
  else
    match cvTextOf c with
    | none => noEffects
    | some t =>
      if t.isEmpty then noEffects
      else evaluateCandidate c jobs (existingOf c.id) (llm c)

/-- The whole run over the candidate list, accumulating effects in order. -/
def processAll (jobs : List Job) (existingOf : String → List String)
    (cvTextOf : Candidate → Option String)
    (llm : Candidate → List Job → Option StructuredResult) :
    List Candidate → CandidateEffects
  | [] => noEffects
  | c :: rest =>
    let e1 := candidateRun jobs existingOf cvTextOf llm c
    let e2 := processAll jobs existingOf cvTextOf llm rest
    ⟨e1.modelCalls + e2.modelCalls, e1.candidateUpdates ++ e2.candidateUpdates,
      e1.scoreUpserts ++ e2.scoreUpserts⟩

/-- Python `str.split(sep)` for a non-empty separator, over the character
list: scan left to right, cut at each non-overlapping occurrence of `pat`.
`"".split(sep) == [""]`, and a string without the separator is returned
whole as a one-element list. -/
def splitOnL (pat : List Char) : List Char → List (List Char)
  | [] => [[]]
  | c :: t =>
    if h : pat ≠ [] ∧ pat.isPrefixOf (c :: t) then
      [] :: splitOnL pat ((c :: t).drop pat.length)
    else
      match splitOnL pat t with
      | [] => [[c]]
      | p :: ps => (c :: p) :: ps
termination_by xs => xs.length
decreasing_by
  · simp only [List.length_drop, List.length_cons]
    have hp : 0 < pat.length := List.length_pos.mpr h.1
    omega
  · simp only [List.length_cons]
    omega

/-- Python `sep in s` (substring membership) over the character list. -/
def containsSub (pat : List Char) : List Char → Bool
  | [] => pat.isEmpty
  | l@(_ :: t) => pat.isPrefixOf l || containsSub pat t

/-- `s.split(sep)` at the `String` level. -/
def pySplit (s sep : String) : List String :=
  (splitOnL sep.data s.data).map (fun cs => String.mk cs)

/-- `sep in s` at the `String` level. -/
def strContains (s sep : String) : Bool :=
  containsSub sep.data s.data

/-- The separator literal of line 92: `"/cv-files/"`. -/
def cvMarker : List Char := "/cv-files/".data

/-- Line 92, over characters: `candidate["cv_file_url"].split("/cv-files/")[-1]`
(`[-1]` is the last element; `split` never returns an empty list). -/
def cvPathChars (url : List Char) : List Char :=
  (splitOnL cvMarker url).getLastD []

/-- Line 92 at the `String` level. -/
def cvPath (url : String) : String :=
  String.mk (cvPathChars url.data)

/-- `llm_factory.py` line 25: strip Markdown fences then whitespace before
parsing: `response.text.replace("```json", "").replace("```", "").strip()`. -/
def cleanGoogleText (t : String) : String :=
  pyStrip ((t.replace "```json" "").replace "```" "")

/-- `GoogleProvider.generate_analysis` (lines 19-29): the transport either
raises (`Except.error`) or yields the response text; the `try/except` turns
any raise or JSON parse failure into the empty dict, modelled `none`.
`jsonParse` is the opaque `json.loads` restricted to the expected shape. -/
def googleGenerate (transport : Except String String)
    (jsonParse : String → Option StructuredResult) : Option StructuredResult :=
  match transport with
  | .error _ => none
  | .ok text => jsonParse (cleanGoogleText text)

/-- `OpenAIProvider.generate_analysis` (lines 36-49): message content is
parsed directly; any raise or parse failure yields the empty dict. -/
def openaiGenerate (transport : Except String String)
    (jsonParse : String → Option StructuredResult) : Option StructuredResult :=
  match transport with
  | .error _ => none
  | .ok content => jsonParse content

/-- `OllamaProvider` lines 64-69: fence extraction.
`content.split("```json")[1].split("```")[0].strip()` when a json fence is
present, else the same with the bare fence, else the raw content. -/
def ollamaExtract (content : String) : String :=
  if strContains content "```json" then
    pyStrip ((pySplit ((pySplit content "```json").getD 1 "") "```").getD 0 "")
  else if strContains content "```" then
    pyStrip ((pySplit ((pySplit content "```").getD 1 "") "```").getD 0 "")
  else content

/-- `OllamaProvider.generate_analysis` (lines 55-74). -/
def ollamaGenerate (transport : Except String String)
    (jsonParse : String → Option StructuredResult) : Option StructuredResult :=
  match transport with
  | .error _ => none
  | .ok content => jsonParse (ollamaExtract content)

/-! Concrete sample values used by claim statements and witness theorems,
and the spec-worded variant of the name check for claim C9. -/

/-- A sample open job with id `J1`. -/
def jobJ1 : Job := ⟨"J1", "t", "d", "r", []⟩

/-- An evaluation entry with every field missing (all defaults apply). -/
def evalStub : EvalData := {}

/-- A candidate whose name is a filename placeholder. -/
def candPlaceholder : Candidate :=
  ⟨"c1", "CV Andrea Smith", none, some "555-1234", none, none, some "u"⟩

/-- A candidate with complete info (real name, non-empty phone). -/
def candComplete : Candidate :=
  ⟨"c2", "Jane Roe", none, some "555-1234", none, none, some "u"⟩

/-- An extraction carrying numeric zero years and an empty name string. -/
def extractedZeroYears : ExtractedInfo :=
  { years_of_experience := some (PyVal.pyNum 0), full_name := some "" }

/-- Spec-worded variant of the name check with the exact-equality disjunct
removed, for the redundancy claim C9. -/
def nameNeedsUpdateNoLiteral (full_name : String) : Bool :=
  pyStartsWith (pyLower full_name) "cv " || pyEndsWith (pyLower full_name) ".pdf"

/-! Helper lemmas about `splitOnL`. -/

theorem splitOnL_ne_nil (pat xs : List Char) : splitOnL pat xs ≠ [] := by
  cases xs with
  | nil => simp [splitOnL]
  | cons c t =>
    rw [splitOnL]
    by_cases h : pat ≠ [] ∧ pat.isPrefixOf (c :: t)
    · rw [dif_pos h]
      simp
    · rw [dif_neg h]
      cases hsp : splitOnL pat t <;> simp

theorem containsSub_iff (pat xs : List Char) : containsSub pat xs = true ↔ pat <:+: xs := by
  induction xs with
  | nil =>
    simp [containsSub, List.infix_nil, List.isEmpty_iff]
  | cons c t ih =>
    simp [containsSub, Bool.or_eq_true, ih, List.infix_cons_iff,
      List.isPrefixOf_iff_prefix]

theorem splitOnL_of_no_occurrence (pat xs : List Char) (h : ¬ pat <:+: xs) :
    splitOnL pat xs = [xs] := by
  induction xs with
  | nil => simp [splitOnL]
  | cons c t ih =>
    have hpre : ¬ (pat ≠ [] ∧ pat.isPrefixOf (c :: t)) := by
      rintro ⟨-, hp⟩
      exact h (( List.isPrefixOf_iff_prefix.mp hp).isInfix)
    have ht : ¬ pat <:+: t := fun hi => h (List.infix_cons_iff.mpr (Or.inr hi))
    rw [splitOnL, dif_neg hpre, ih ht]

theorem two_le_splitOnL_length (pat xs : List Char) (hne : pat ≠ [])
    (h : pat <:+: xs) : 2 ≤ (splitOnL pat xs).length := by
  induction xs with
  | nil => exact absurd (List.infix_nil.mp h) hne
  | cons c t ih =>
    by_cases hp : pat.isPrefixOf (c :: t)
    · rw [splitOnL, dif_pos ⟨hne, hp⟩]
      have hlen := List.length_pos.mpr (splitOnL_ne_nil pat ((c :: t).drop pat.length))
      simp only [List.length_cons]
      omega
    · have hcond : ¬ (pat ≠ [] ∧ pat.isPrefixOf (c :: t)) := fun hc => hp hc.2
      rw [splitOnL, dif_neg hcond]
      have ht : pat <:+: t := by
        rcases List.infix_cons_iff.mp h with h1 | h2
        · exact absurd ( List.isPrefixOf_iff_prefix.mpr h1) hp
        · exact h2
      have h2 := ih ht
      cases hsp : splitOnL pat t with
      | nil => exact absurd hsp (splitOnL_ne_nil pat t)
      | cons p ps =>
        rw [hsp] at h2
        simpa using h2

theorem splitOnL_getLastD_spec (pat : List Char) (hne : pat ≠ []) :
    ∀ xs, pat <:+: xs → ∃ pre, xs = pre ++ pat ++ (splitOnL pat xs).getLastD [] := by
  suffices H : ∀ n xs, xs.length ≤ n → pat <:+: xs →
      ∃ pre, xs = pre ++ pat ++ (splitOnL pat xs).getLastD [] by
    intro xs h
    exact H xs.length xs le_rfl h
  intro n
  induction n with
  | zero =>
    intro xs hlen h
    have hx : xs = [] := List.eq_nil_of_length_eq_zero (Nat.le_zero.mp hlen)
    subst hx
    exact absurd (List.infix_nil.mp h) hne
  | succ n ih =>
    intro xs hlen h
    cases xs with
    | nil => exact absurd (List.infix_nil.mp h) hne
    | cons c t =>
      by_cases hp : pat.isPrefixOf (c :: t)
      · have hpre : pat <+: c :: t := List.isPrefixOf_iff_prefix.mp hp
        obtain ⟨rest, hrest⟩ := hpre
        have hdrop : (c :: t).drop pat.length = rest := by
          rw [← hrest, List.drop_left]
        rw [splitOnL, dif_pos ⟨hne, hp⟩, hdrop, List.getLastD_cons]
        by_cases hir : pat <:+: rest
        · have hlen' : rest.length ≤ n := by
            have hlt : rest.length < (c :: t).length := by
              rw [← hrest, List.length_append]
              have := List.length_pos.mpr hne
              omega
            simp only [List.length_cons] at hlen hlt
            omega
          obtain ⟨p, hp2⟩ := ih rest hlen' hir
          refine ⟨pat ++ p, ?_⟩
          rw [← hrest]
          conv_lhs => rw [hp2]
          simp [List.append_assoc]
        · rw [splitOnL_of_no_occurrence pat rest hir]
          refine ⟨[], ?_⟩
          simpa using hrest.symm
      · have hcond : ¬ (pat ≠ [] ∧ pat.isPrefixOf (c :: t)) := fun hc => hp hc.2
        have ht : pat <:+: t := by
          rcases List.infix_cons_iff.mp h with h1 | h2
          · exact absurd ( List.isPrefixOf_iff_prefix.mpr h1) hp
          · exact h2
        have hlen' : t.length ≤ n := by
          simp only [List.length_cons] at hlen
          omega
        obtain ⟨p', hp'⟩ := ih t hlen' ht
        have h2 := two_le_splitOnL_length pat t hne ht
        rw [splitOnL, dif_neg hcond]
        cases hsp : splitOnL pat t with
        | nil => exact absurd hsp (splitOnL_ne_nil pat t)
        | cons p ps =>
          rw [hsp] at hp' h2
          cases ps with
          | nil => simp at h2
          | cons q qs =>
            refine ⟨c :: p', ?_⟩
            simp only [List.getLastD_cons] at hp' ⊢
            exact congrArg (c :: ·) hp'

/-- The truthiness gate keeps exactly the present non-empty strings. -/
theorem truthyStr_eq_some (o : Option String) (v : String) :
    truthyStr o = some v ↔ o = some v ∧ v ≠ "" := by
  cases o with
  | none => simp [truthyStr]
  | some s =>
    simp only [truthyStr]
    by_cases hs : s.isEmpty
    · have hse : s = "" := (String.isEmpty_iff s).mp hs
      subst hse
      rw [if_pos hs]
      apply iff_of_false
      · simp
      · rintro ⟨h1, h2⟩
        have hv : "" = v := by injection h1
        exact h2 hv.symm
    · have hne : s ≠ "" := fun he => hs ((String.isEmpty_iff s).mpr he)
      rw [if_neg hs]
      constructor
      · intro h1
        have hsv : s = v := by injection h1
        subst hsv
        exact ⟨rfl, hne⟩
      · rintro ⟨h1, -⟩
        have hsv : s = v := by injection h1
        subst hsv
        rfl

/-! The claims. -/

/-- C1: the reconciliation step produces a score upsert for an entry of
`result.evaluations` exactly when that entry's key equals the id of some job
in `jobs_to_evaluate`; out-of-batch entries are dropped while their siblings
are still processed, in order.  In particular for `jobs_to_evaluate = [J1]`
and evaluations covering `J1` and `J2`, exactly the upsert for `J1` is
produced. -/
theorem c1_out_of_batch_rejection :
    (∀ (cid : String) (jte : List Job) (evals : List (String × EvalData)),
      (scoreUpserts cid jte evals).map ScoreData.job_posting_id
        = (evals.map Prod.fst).filter (fun k => jte.any (fun j => j.id == k)))
    ∧ (scoreUpserts "c0" [jobJ1] [("J1", evalStub), ("J2", evalStub)]).map
        ScoreData.job_posting_id = ["J1"] := by
  constructor
  · intro cid jte evals
    induction evals with
    | nil => rfl
    | cons e rest ih =>
      by_cases hk : jte.any (fun j => j.id == e.1) = true
      · simp only [scoreUpserts, List.filter_cons, List.map_cons, hk, if_true] at ih ⊢
        rw [← ih]
        rfl
      · simp only [scoreUpserts, List.filter_cons, List.map_cons, hk,
          Bool.false_eq_true, if_false] at ih ⊢
        exact ih
  · decide

/-- C2: whenever the candidate's name, case-insensitively, starts with
`"cv "`, or ends with `".pdf"`, or equals `"CV con foto"` exactly, or the
phone field is empty, the work selector returns all open jobs regardless of
the existing score ids. -/
theorem c2_full_reeval_trigger (c : Candidate) (jobs : List Job)
    (existing : List String)
    (h : pyStartsWith (pyLower c.full_name) "cv " = true
      ∨ pyEndsWith (pyLower c.full_name) ".pdf" = true
      ∨ c.full_name = placeholderName
      ∨ phoneNeedsUpdate c.phone = true) :
    jobsToEvaluate c jobs existing = jobs := by
  have hnu : needsUpdate c = true := by
    rcases h with h | h | h | h
    · simp [needsUpdate, nameNeedsUpdate, h]
    · simp [needsUpdate, nameNeedsUpdate, h]
    · simp [needsUpdate, nameNeedsUpdate, h]
    · simp [needsUpdate, h]
  simp [jobsToEvaluate, hnu]

/-- Witness for C2: the placeholder-named candidate gets the full job list
even though `J1` is already scored. -/
theorem c2_witness : jobsToEvaluate candPlaceholder [jobJ1] ["J1"] = [jobJ1] :=
  c2_full_reeval_trigger candPlaceholder [jobJ1] ["J1"] (Or.inl (by decide))

/-- C8: the derived storage path is the last element of
`url.split("/cv-files/")`; when the marker occurs in the url the path is what
follows an occurrence of the marker (marker and everything before it
removed), and when it does not occur the path is the whole url unchanged. -/
theorem c8_cv_path_derivation (url : List Char) :
    (cvMarker <:+: url → ∃ pre, url = pre ++ cvMarker ++ cvPathChars url)
    ∧ (¬ cvMarker <:+: url → cvPathChars url = url) := by
  constructor
  · intro h
    exact splitOnL_getLastD_spec cvMarker (by decide) url h
  · intro h
    unfold cvPathChars
    rw [splitOnL_of_no_occurrence cvMarker url h]
    rfl

/-- Witness for C8: a url containing the marker decomposes around it, and a
url lacking the marker is passed through whole. -/
theorem c8_witness :
    (∃ pre, "a/cv-files/b.pdf".data
        = pre ++ cvMarker ++ cvPathChars "a/cv-files/b.pdf".data)
    ∧ cvPathChars "zz".data = "zz".data :=
  ⟨(c8_cv_path_derivation "a/cv-files/b.pdf".data).1 (by decide),
   (c8_cv_path_derivation "zz".data).2 (by decide)⟩

/-- C9: the placeholder-literal disjunct is redundant — for every name, the
three-disjunct check of line 112 equals the check without the exact-equality
disjunct, because `"CV con foto"` lowercased itself starts with `"cv "`. -/
theorem c9_placeholder_disjunct_redundant (s : String) :
    nameNeedsUpdate s = nameNeedsUpdateNoLiteral s := by
  by_cases h : s = placeholderName
  · subst h
    decide
  · have hb : (s == placeholderName) = false := beq_eq_false_iff_ne.mpr h
    simp [nameNeedsUpdate, nameNeedsUpdateNoLiteral, hb]

/-- C3: for a candidate whose name is not a filename placeholder and whose
phone is non-empty, the selector returns exactly the open jobs whose id is
not among the existing score ids, in fetch order; and whenever the selection
is empty the candidate is skipped entirely — no model call, no candidate
update, no score write. -/
theorem c3_incremental_selection_and_skip (c : Candidate) (jobs : List Job)
    (existing : List String) (llm : List Job → Option StructuredResult)
    (hname : nameNeedsUpdate c.full_name = false)
    (hphone : phoneNeedsUpdate c.phone = false) :
    jobsToEvaluate c jobs existing = jobs.filter (fun j => !(existing.contains j.id))
    ∧ (jobsToEvaluate c jobs existing = [] →
        evaluateCandidate c jobs existing llm = noEffects) := by
  have hnu : needsUpdate c = false := by
    simp [needsUpdate, hname, hphone]
  refine ⟨by simp [jobsToEvaluate, hnu], fun he => ?_⟩
  simp [evaluateCandidate, he, noEffects]

/-- Witness for C3: a complete candidate with the only open job already
scored is skipped with zero effects. -/
theorem c3_witness :
    jobsToEvaluate candComplete [jobJ1] ["J1"]
        = [jobJ1].filter (fun j => !(["J1"].contains j.id))
    ∧ evaluateCandidate candComplete [jobJ1] ["J1"] (fun _ => none) = noEffects := by
  have h := c3_incremental_selection_and_skip candComplete [jobJ1] ["J1"]
    (fun _ => none) (by decide) (by decide)
  exact ⟨h.1, h.2 (by decide)⟩

/-- C4: every provider maps a transport error or an unparseable response to
the empty mapping (never an escaping exception), and an empty mapping makes
the orchestrator produce no candidate update and no score upserts for the
batch. -/
theorem c4_provider_failure_contract :
    (∀ (e : String) (p : String → Option StructuredResult),
      googleGenerate (.error e) p = none)
    ∧ (∀ (t : String) (p : String → Option StructuredResult),
        p (cleanGoogleText t) = none → googleGenerate (.ok t) p = none)
    ∧ (∀ (e : String) (p : String → Option StructuredResult),
        openaiGenerate (.error e) p = none)
    ∧ (∀ (t : String) (p : String → Option StructuredResult),
        p t = none → openaiGenerate (.ok t) p = none)
    ∧ (∀ (e : String) (p : String → Option StructuredResult),
        ollamaGenerate (.error e) p = none)
    ∧ (∀ (t : String) (p : String → Option StructuredResult),
        p (ollamaExtract t) = none → ollamaGenerate (.ok t) p = none)
    ∧ (∀ (c : Candidate) (jobs : List Job) (existing : List String)
          (llm : List Job → Option StructuredResult),
        llm (jobsToEvaluate c jobs existing) = none →
        (evaluateCandidate c jobs existing llm).candidateUpdates = []
          ∧ (evaluateCandidate c jobs existing llm).scoreUpserts = []) := by
  refine ⟨fun e p => rfl, fun t p h => h, fun e p => rfl, fun t p h => h,
    fun e p => rfl, fun t p h => h, ?_⟩
  intro c jobs existing llm h
  unfold evaluateCandidate
  by_cases hj : (jobsToEvaluate c jobs existing).isEmpty
  · simp [hj, noEffects]
  · simp [hj, h]

/-- Witness for C4: each provider on an unparseable reply, and the
orchestrator on an empty model reply, all at concrete inputs. -/
theorem c4_witness :
    googleGenerate (.ok "not json") (fun _ => none) = none
    ∧ openaiGenerate (.ok "not json") (fun _ => none) = none
    ∧ ollamaGenerate (.ok "not json") (fun _ => none) = none
    ∧ (evaluateCandidate candComplete [jobJ1] [] (fun _ => none)).candidateUpdates = []
    ∧ (evaluateCandidate candComplete [jobJ1] [] (fun _ => none)).scoreUpserts = [] := by
  have h := c4_provider_failure_contract
  have horch := h.2.2.2.2.2.2 candComplete [jobJ1] [] (fun _ => none) rfl
  exact ⟨h.2.1 "not json" (fun _ => none) rfl,
    h.2.2.2.1 "not json" (fun _ => none) rfl,
    h.2.2.2.2.2.1 "not json" (fun _ => none) rfl,
    horch.1, horch.2⟩

/-- C5: the update record keeps exactly the string fields whose extracted
value is present and non-empty, plus `years_of_experience` when coercion
succeeds; and when the record is empty no candidate update is written. -/
theorem c5_null_preserving_update (e : ExtractedInfo) :
    (∀ v : String,
      ((buildUpdateData e).full_name = some v ↔ e.full_name = some v ∧ v ≠ ""))
    ∧ (∀ v : String,
      ((buildUpdateData e).email = some v ↔ e.email = some v ∧ v ≠ ""))
    ∧ (∀ v : String,
      ((buildUpdateData e).phone = some v ↔ e.phone = some v ∧ v ≠ ""))
    ∧ (∀ v : String,
      ((buildUpdateData e).education_level = some v
        ↔ e.education_level = some v ∧ v ≠ ""))
    ∧ (∀ n : Int,
      ((buildUpdateData e).years_of_experience = some n
        ↔ ∃ w, e.years_of_experience = some w ∧ coerceYears w = some n))
    ∧ (∀ (c : Candidate) (jobs : List Job) (existing : List String)
          (llm : List Job → Option StructuredResult) (r : StructuredResult),
        llm (jobsToEvaluate c jobs existing) = some r →
        (buildUpdateData r.extracted_info).isEmpty = true →
        (evaluateCandidate c jobs existing llm).candidateUpdates = []) := by
  refine ⟨fun v => truthyStr_eq_some e.full_name v,
    fun v => truthyStr_eq_some e.email v,
    fun v => truthyStr_eq_some e.phone v,
    fun v => truthyStr_eq_some e.education_level v,
    fun n => by simp [buildUpdateData, Option.bind_eq_some], ?_⟩
  intro c jobs existing llm r hr hu
  unfold evaluateCandidate
  by_cases hj : (jobsToEvaluate c jobs existing).isEmpty
  · simp [hj, noEffects]
  · simp [hj, hr, hu]

/-- Witness for C5: an all-null extraction yields no candidate update write. -/
theorem c5_witness :
    (evaluateCandidate candComplete [jobJ1] [] (fun _ => some {})).candidateUpdates
      = [] :=
  (c5_null_preserving_update {}).2.2.2.2.2 candComplete [jobJ1] []
    (fun _ => some {}) {} rfl (by decide)

/-- C6: a present `years_of_experience` is coerced by the float-then-int
cast (`"3.0"` gives `3`); a failed cast (`"n/a"`) just omits the field while
the other update fields and the score upserts are unaffected. -/
theorem c6_numeric_coercion :
    coerceYears (PyVal.pyStr "3.0") = some 3
    ∧ coerceYears (PyVal.pyStr "n/a") = none
    ∧ (∀ (e : ExtractedInfo) (v : PyVal), e.years_of_experience = some v →
        (buildUpdateData e).years_of_experience = coerceYears v)
    ∧ (∀ e : ExtractedInfo,
        (buildUpdateData e).full_name
            = (buildUpdateData { e with years_of_experience := none }).full_name
        ∧ (buildUpdateData e).email
            = (buildUpdateData { e with years_of_experience := none }).email
        ∧ (buildUpdateData e).phone
            = (buildUpdateData { e with years_of_experience := none }).phone
        ∧ (buildUpdateData e).education_level
            = (buildUpdateData { e with years_of_experience := none }).education_level)
    ∧ (∀ (c : Candidate) (jobs : List Job) (existing : List String)
          (llm : List Job → Option StructuredResult) (r : StructuredResult),
        llm (jobsToEvaluate c jobs existing) = some r →
        (evaluateCandidate c jobs existing llm).scoreUpserts
          = scoreUpserts c.id (jobsToEvaluate c jobs existing) r.evaluations) := by
  refine ⟨?_, by decide, fun e v h => by simp [buildUpdateData, h],
    fun e => ⟨rfl, rfl, rfl, rfl⟩, ?_⟩
  · show (pyFloatOfString "3.0").map truncToInt = some 3
    have h : pyFloatOfString "3.0"
        = some ((digitsVal ['3'] : Rat)
            + (digitsVal ['0'] : Rat) / ((10 : Rat) ^ (['0'] : List Char).length)) := rfl
    rw [h, show digitsVal ['3'] = 3 from by decide,
      show digitsVal ['0'] = 0 from by decide]
    norm_num [truncToInt, Rat.floor_def']
  · intro c jobs existing llm r hr
    unfold evaluateCandidate
    by_cases hj : (jobsToEvaluate c jobs existing).isEmpty
    · have hjl : jobsToEvaluate c jobs existing = [] := by
        simpa using hj
      simp [hj, hjl, noEffects, scoreUpserts]
    · simp [hj, hr]

/-- Witness for C6: a concrete extraction with `years_of_experience = "3.0"`
lands in the update record via the coercion, and the upserts of a concrete
run equal the reconciled upserts. -/
theorem c6_witness :
    (buildUpdateData { years_of_experience := some (PyVal.pyStr "3.0") }).years_of_experience
        = coerceYears (PyVal.pyStr "3.0")
    ∧ (evaluateCandidate candComplete [jobJ1] [] (fun _ => some {})).scoreUpserts
        = scoreUpserts candComplete.id (jobsToEvaluate candComplete [jobJ1] [])
            ({} : StructuredResult).evaluations :=
  ⟨c6_numeric_coercion.2.2.1 _ (PyVal.pyStr "3.0") rfl,
   c6_numeric_coercion.2.2.2.2 candComplete [jobJ1] [] (fun _ => some {}) {} rfl⟩

/-- C7: a second run over unchanged data writes nothing — when every
candidate has a non-placeholder name, a non-empty phone, and every open
job's id among its existing score ids, the whole run issues zero model
calls, zero candidate updates and zero score upserts. -/
theorem c7_idempotent_second_run (jobs : List Job)
    (existingOf : String → List String) (cvTextOf : Candidate → Option String)
    (llm : Candidate → List Job → Option StructuredResult)
    (cands : List Candidate)
    (h : ∀ c ∈ cands, nameNeedsUpdate c.full_name = false
        ∧ phoneNeedsUpdate c.phone = false
        ∧ ∀ j ∈ jobs, (existingOf c.id).contains j.id = true) :
    processAll jobs existingOf cvTextOf llm cands = noEffects := by
  induction cands with
  | nil => rfl
  | cons c rest ih =>
    obtain ⟨h1, h2, h3⟩ := h c (List.mem_cons_self c rest)
    have hrun : candidateRun jobs existingOf cvTextOf llm c = noEffects := by
      unfold candidateRun
      by_cases hurl : (c.cv_file_url.getD "").isEmpty
      · simp [hurl]
      · rw [if_neg hurl]
        cases hcv : cvTextOf c with
        | none => rfl
        | some t =>
          by_cases hts : t.isEmpty
          · simp [hts]
          · have hnu : needsUpdate c = false := by
              simp [needsUpdate, h1, h2]
            have hfil : jobs.filter (fun j => !((existingOf c.id).contains j.id)) = [] := by
              rw [List.filter_eq_nil_iff]
              intro j hj
              simpa using h3 j hj
            have hjte : jobsToEvaluate c jobs (existingOf c.id) = [] := by
              rw [jobsToEvaluate, if_neg (by simp [hnu])]
              exact hfil
            simp [hts, evaluateCandidate, hjte]
    have hrest : processAll jobs existingOf cvTextOf llm rest = noEffects :=
      ih (fun c' hc' => h c' (List.mem_cons_of_mem c hc'))
    simp [processAll, hrun, hrest, noEffects]

/-- Witness for C7: one complete, fully-scored candidate — the whole run
has zero effects. -/
theorem c7_witness :
    processAll [jobJ1] (fun _ => ["J1"]) (fun _ => some "text") (fun _ _ => none)
      [candComplete] = noEffects :=
  c7_idempotent_second_run [jobJ1] (fun _ => ["J1"]) (fun _ => some "text")
    (fun _ _ => none) [candComplete] (by decide)

/-- C10: numeric 0 for `years_of_experience` is preserved (the field is
gated by an is-not-None test), while a string field extracted as the empty
string is omitted (truthiness gate). -/
theorem c10_zero_years_preserved (e : ExtractedInfo) :
    (e.years_of_experience = some (PyVal.pyNum 0) →
      (buildUpdateData e).years_of_experience = some 0)
    ∧ (e.full_name = some "" → (buildUpdateData e).full_name = none) := by
  constructor
  · intro h
    have h0 : truncToInt 0 = 0 := by norm_num [truncToInt, Rat.floor_def']
    simp [buildUpdateData, h, coerceYears, pyFloat, h0]
  · intro h
    simp only [buildUpdateData, h, truthyStr]
    simp [String.isEmpty_iff]

/-- Witness for C10: a concrete extraction with zero years and an empty
name. -/
theorem c10_witness :
    (buildUpdateData extractedZeroYears).years_of_experience = some 0
    ∧ (buildUpdateData extractedZeroYears).full_name = none :=
  ⟨(c10_zero_years_preserved extractedZeroYears).1 rfl,
   (c10_zero_years_preserved extractedZeroYears).2 rfl⟩

end CVMatch
